import Mathlib

/-
Verification of the fsm package (ryanfaerman/fsm, file fsm.go).

The package implements a finite state machine: a `Ruleset` maps a
`Transition` (an origin/exit pair of states) to a list of `Guard`
functions; `Permitted` looks up the guard list for the attempted
transition and evaluates the guards, returning the first error
received (the guards run in goroutines and their results arrive in a
nondeterministic order); `Machine.Transition` calls `Permitted` and
sets the subject's state to the goal only on success.

fsm.go stores guards in Go slices and the ruleset in a Go map keyed by
the transition; we embed the map as an association list with unique
keys (Go maps have unique keys) and the guard slices as Lean lists.
Go `error` results become `Option Err`: `none` is the nil error, and
the distinct `fmt.Errorf` formats of fsm.go become the constructors of
`Err` below.
-/

set_option autoImplicit false

namespace Fsm

/-- Modelled from the spec: the `State` type itself is defined in a file
of the repository that is not included under src (fsm.go only uses its
`ID()` method and equality, and the test file builds states from string
literals). The spec describes a State as an opaque, equality-comparable
identity token; we model it as a string whose ID is itself. -/
abbrev State := String

/-- Modelled from the spec: `State.ID` returns the identity used in the
error messages of fsm.go (`subject.CurrentState().ID()`, `goal.ID()`). -/
def State.ID (s : State) : String := s

/-- Go error values produced by the package, one constructor per
distinct error source in fsm.go:
`cannotTransition` is `fmt.Errorf(errTransitionFormat, ...)` with format
"Cannot transition from %s to %s" (the default guard's denial),
`noRulesFound` is `fmt.Errorf(errNoRulesFormat, ...)` with format
"No rules found for %s to %s" (the missing-key branch of `Permitted`),
and `custom` stands for an error returned by a user-supplied guard. -/
inductive Err where
  | cannotTransition (fromID toID : String)
  | noRulesFound (fromID toID : String)
  | custom (msg : String)
deriving DecidableEq

/-- `type Guard func(subject Stater, goal State) error` (fsm.go line 10).
A guard observes the subject only through `CurrentState()`, so we pass
the subject's current state directly; `none` is the nil error. -/
abbrev Guard := State → State → Option Err

/-- `type T struct { O, E State }` (fsm.go lines 30 to 32), the default
implementation of the Transition interface and the key type actually
used for every ruleset lookup (`Permitted` builds a `T` literal). -/
structure T where
  O : State
  E : State
deriving DecidableEq

/-- `func (t T) Origin() State { return t.O }` (fsm.go line 35). -/
def T.Origin (t : T) : State := t.O

/-- `func (t T) Exit() State { return t.E }` (fsm.go line 38). -/
def T.Exit (t : T) : State := t.E

/-- `type Ruleset map[Transition][]Guard` (fsm.go line 41), embedded as
an association list with unique keys. -/
abbrev Ruleset := List (T × List Guard)

/-- Lookup of a key in the ruleset map (`guards, ok := r[attempt]`):
`some gs` when the key is present with guard list `gs`, `none` when the
key is absent. -/
def Ruleset.find : Ruleset → T → Option (List Guard)
  | [], _ => none
  | (k, gs) :: rest, t => if k = t then some gs else Ruleset.find rest t

/-- Go map assignment `r[t] = gs`: replaces the guard list stored at
key `t`, creating the entry when the key is absent. -/
def Ruleset.setGuards : Ruleset → T → List Guard → Ruleset
  | [], t, gs => [(t, gs)]
  | (k, v) :: rest, t, gs =>
    if k = t then (t, gs) :: rest else (k, v) :: Ruleset.setGuards rest t gs

/-- `func (r Ruleset) AddRule(t Transition, guards ...Guard)` (fsm.go
lines 44 to 48): for each guard in order, `r[t] = append(r[t], guard)`;
`r[t]` on an absent key is the nil slice, so appending to it creates
the entry. With zero guards the loop body never runs. -/
def Ruleset.AddRule (r : Ruleset) (t : T) (guards : List Guard) : Ruleset :=
  guards.foldl
    (fun acc g => Ruleset.setGuards acc t (((Ruleset.find acc t).getD []) ++ [g])) r

/-- The guard closure synthesized by `AddTransition` (fsm.go lines 52
to 57): denies with the "Cannot transition" error when the subject's
current state differs from the transition's origin. -/
def defaultGuard (t : T) : Guard := fun subjectState goal =>
  if subjectState ≠ T.Origin t then
    some (Err.cannotTransition (State.ID subjectState) (State.ID goal))
  else
    none

/-- `func (r Ruleset) AddTransition(t Transition)` (fsm.go lines 51 to
58): `r.AddRule(t, defaultGuard)`. -/
def Ruleset.AddTransition (r : Ruleset) (t : T) : Ruleset :=
  Ruleset.AddRule r t [defaultGuard t]

/-- `func CreateRuleset(transitions ...Transition) Ruleset` (fsm.go
lines 62 to 70): starts from the empty map and calls `AddTransition`
on each transition in order. -/
def CreateRuleset (transitions : List T) : Ruleset :=
  transitions.foldl Ruleset.AddTransition []

/-- The receive loop of `Permitted` (fsm.go lines 88 to 95) applied to
the guard results in their arrival order: returns the first non-nil
error received, or nil after all results were received nil. -/
def firstErr : List (Option Err) → Option Err
  | [] => none
  | none :: rest => firstErr rest
  | some e :: _ => some e

/-- `func (r Ruleset) Permitted(subject Stater, goal State) error`
(fsm.go lines 76 to 100) with the guard results arriving in
registration order: builds the attempt key from the subject's current
state and the goal, returns the "No rules found" error when the key is
absent, and otherwise the first error among the guard results. -/
def Ruleset.Permitted (r : Ruleset) (subjectState goal : State) : Option Err :=
  match Ruleset.find r (T.mk subjectState goal) with
  | some gs => firstErr (gs.map (fun g => g subjectState goal))
  | none => some (Err.noRulesFound (State.ID subjectState) (State.ID goal))

/-- The set of results `Permitted` may return: the goroutine per guard
and the shared unbuffered channel (fsm.go lines 80 to 95) deliver the
guard results in an arbitrary order, so `e` is a possible result
exactly when some permutation of the guard list yields it through the
receive loop; when the attempt key is absent the result is always the
"No rules found" error. -/
def Ruleset.PermittedOutcome (r : Ruleset) (subjectState goal : State)
    (e : Option Err) : Prop :=
  (∀ gs, Ruleset.find r (T.mk subjectState goal) = some gs →
    ∃ arrival : List Guard, List.Perm arrival gs ∧
      e = firstErr (arrival.map (fun g => g subjectState goal))) ∧
  (Ruleset.find r (T.mk subjectState goal) = none →
    e = some (Err.noRulesFound (State.ID subjectState) (State.ID goal)))

/-- `type Machine struct { Rules *Ruleset; Subject Stater }` (fsm.go
lines 112 to 115); the Stater interface is a mutable holder of the
current state, so the machine carries the subject's current state and
`Transition` returns the updated machine. -/
structure Machine where
  rules : Ruleset
  subject : State

/-- `func (m Machine) Transition(goal State) (err error)` (fsm.go lines
118 to 125): calls `Permitted`; on nil error sets the subject's state
to the goal and returns nil, otherwise returns the error with the
subject untouched. -/
def Machine.Transition (m : Machine) (goal : State) : Option Err × Machine :=
  match Ruleset.Permitted m.rules m.subject goal with
  | none => (none, Machine.mk m.rules goal)
  | some e => (some e, m)

/-! Basic lemmas about the map embedding. -/

theorem find_setGuards_self (r : Ruleset) (t : T) (gs : List Guard) :
    Ruleset.find (Ruleset.setGuards r t gs) t = some gs := by
  induction r with
  | nil => simp [Ruleset.setGuards, Ruleset.find]
  | cons hd rest ih =>
    obtain ⟨k, v⟩ := hd
    by_cases hk : k = t
    · simp [Ruleset.setGuards, hk, Ruleset.find]
    · simp [Ruleset.setGuards, hk, Ruleset.find, ih]

theorem find_setGuards_ne (r : Ruleset) (t t' : T) (gs : List Guard)
    (h : t' ≠ t) :
    Ruleset.find (Ruleset.setGuards r t gs) t' = Ruleset.find r t' := by
  induction r with
  | nil =>
    simp [Ruleset.setGuards, Ruleset.find, Ne.symm h]
  | cons hd rest ih =>
    obtain ⟨k, v⟩ := hd
    by_cases hk : k = t
    · subst hk
      simp [Ruleset.setGuards, Ruleset.find, Ne.symm h]
    · simp [Ruleset.setGuards, hk, Ruleset.find, ih]

theorem addRule_single (r : Ruleset) (t : T) (g : Guard) :
    Ruleset.AddRule r t [g]
      = Ruleset.setGuards r t (((Ruleset.find r t).getD []) ++ [g]) := rfl

theorem addRule_nil (r : Ruleset) (t : T) : Ruleset.AddRule r t [] = r := rfl

theorem find_addTransition_self (r : Ruleset) (t : T) :
    Ruleset.find (Ruleset.AddTransition r t) t
      = some (((Ruleset.find r t).getD []) ++ [defaultGuard t]) := by
  show Ruleset.find
      (Ruleset.setGuards r t (((Ruleset.find r t).getD []) ++ [defaultGuard t])) t
      = _
  exact find_setGuards_self r t _

theorem find_addTransition_ne (r : Ruleset) (t t' : T) (h : t' ≠ t) :
    Ruleset.find (Ruleset.AddTransition r t) t' = Ruleset.find r t' :=
  find_setGuards_ne r t t' _ h

/-! Lemmas about the receive loop. -/

theorem firstErr_eq_none_iff (l : List (Option Err)) :
    firstErr l = none ↔ ∀ x ∈ l, x = none := by
  induction l with
  | nil => simp [firstErr]
  | cons hd rest ih =>
    cases hd with
    | none => simp [firstErr, ih]
    | some e => simp [firstErr]

theorem firstErr_mem (l : List (Option Err)) (e : Err)
    (h : firstErr l = some e) : some e ∈ l := by
  induction l with
  | nil => simp [firstErr] at h
  | cons hd rest ih =>
    cases hd with
    | none =>
      simp only [firstErr] at h
      exact List.mem_cons_of_mem _ (ih h)
    | some e' =>
      simp only [firstErr, Option.some.injEq] at h
      subst h
      exact List.mem_cons_self _ _

/-- The sequential `Permitted` result is one of the possible
concurrent outcomes (the arrival order that matches registration
order). -/
theorem permitted_isOutcome (r : Ruleset) (cur goal : State) :
    Ruleset.PermittedOutcome r cur goal (Ruleset.Permitted r cur goal) := by
  constructor
  · intro gs hfind
    refine ⟨gs, List.Perm.refl gs, ?_⟩
    simp [Ruleset.Permitted, hfind]
  · intro hfind
    simp [Ruleset.Permitted, hfind]

/-! Invariants of rulesets built through the public constructors. -/

/-- Every guard stored in the ruleset is the default guard of its own
key; this holds for every ruleset built only with `AddTransition` or
`CreateRuleset`. -/
def AllDefault (r : Ruleset) : Prop :=
  ∀ t gs, Ruleset.find r t = some gs → ∀ g ∈ gs, g = defaultGuard t

/-- Rulesets reachable from the empty map using only `AddTransition`. -/
inductive BuiltDefault : Ruleset → Prop where
  | empty : BuiltDefault []
  | addTransition (r : Ruleset) (t : T) :
      BuiltDefault r → BuiltDefault (Ruleset.AddTransition r t)

/-- Rulesets reachable from the empty map using the public builders
`AddRule` and `AddTransition` (and hence also `CreateRuleset`). -/
inductive Built : Ruleset → Prop where
  | empty : Built []
  | addRule (r : Ruleset) (t : T) (gs : List Guard) :
      Built r → Built (Ruleset.AddRule r t gs)
  | addTransition (r : Ruleset) (t : T) :
      Built r → Built (Ruleset.AddTransition r t)

theorem allDefault_empty : AllDefault [] := by
  intro t gs h
  simp [Ruleset.find] at h

theorem allDefault_addTransition (r : Ruleset) (t : T)
    (h : AllDefault r) : AllDefault (Ruleset.AddTransition r t) := by
  intro t' gs hfind g hg
  by_cases ht : t' = t
  · subst ht
    rw [find_addTransition_self] at hfind
    obtain rfl : ((Ruleset.find r t').getD []) ++ [defaultGuard t'] = gs :=
      Option.some.inj hfind
    rcases List.mem_append.mp hg with hmem | hmem
    · cases hold : Ruleset.find r t' with
      | none => simp [hold] at hmem
      | some old =>
        rw [hold] at hmem
        exact h t' old hold g hmem
    · simpa using hmem
  · rw [find_addTransition_ne r t t' ht] at hfind
    exact h t' gs hfind g hg

theorem allDefault_foldl (ts : List T) :
    ∀ r : Ruleset, AllDefault r →
      AllDefault (List.foldl Ruleset.AddTransition r ts) := by
  induction ts with
  | nil => intro r h; exact h
  | cons t rest ih =>
    intro r h
    exact ih (Ruleset.AddTransition r t) (allDefault_addTransition r t h)

theorem allDefault_createRuleset (ts : List T) :
    AllDefault (CreateRuleset ts) :=
  allDefault_foldl ts [] allDefault_empty

theorem builtDefault_allDefault (r : Ruleset) (h : BuiltDefault r) :
    AllDefault r := by
  induction h with
  | empty => exact allDefault_empty
  | addTransition r t _ ih => exact allDefault_addTransition r t ih

theorem builtDefault_createRuleset (ts : List T) :
    BuiltDefault (CreateRuleset ts) := by
  suffices hgen : ∀ r : Ruleset, BuiltDefault r →
      BuiltDefault (List.foldl Ruleset.AddTransition r ts) from
    hgen [] BuiltDefault.empty
  induction ts with
  | nil => intro r h; exact h
  | cons t rest ih =>
    intro r h
    exact ih (Ruleset.AddTransition r t) (BuiltDefault.addTransition r t h)

/-- A key is absent from a ruleset built by folding `AddTransition`
exactly when it was absent before and is not among the added
transitions. -/
theorem find_foldl_addTransition_eq_none (ts : List T) :
    ∀ (r : Ruleset) (t : T),
      Ruleset.find (List.foldl Ruleset.AddTransition r ts) t = none ↔
        (Ruleset.find r t = none ∧ t ∉ ts) := by
  induction ts with
  | nil => intro r t; simp
  | cons t0 rest ih =>
    intro r t
    rw [List.foldl_cons, ih (Ruleset.AddTransition r t0) t]
    by_cases ht : t = t0
    · subst ht
      rw [find_addTransition_self]
      simp
    · rw [find_addTransition_ne r t0 t ht]
      simp [ht]

/-- A key is present in `CreateRuleset ts` exactly when it is a member
of `ts`. -/
theorem find_createRuleset_eq_none_iff (ts : List T) (t : T) :
    Ruleset.find (CreateRuleset ts) t = none ↔ t ∉ ts := by
  rw [CreateRuleset, find_foldl_addTransition_eq_none]
  simp [Ruleset.find]

/-- Under the all-default invariant, a found guard list always passes:
the attempt key's origin component is the subject's current state, so
the default guard's mismatch test compares the current state with
itself. -/
theorem permitted_allDefault_found (r : Ruleset) (h : AllDefault r)
    (cur goal : State) (gs : List Guard)
    (hfind : Ruleset.find r (T.mk cur goal) = some gs) :
    Ruleset.Permitted r cur goal = none := by
  rw [Ruleset.Permitted, hfind]
  rw [firstErr_eq_none_iff]
  intro x hx
  rcases List.mem_map.mp hx with ⟨g, hg, rfl⟩
  rw [h (T.mk cur goal) gs hfind g hg]
  simp [defaultGuard, T.Origin]

/-- Every key present in the ruleset maps to a non-empty guard list. -/
def NonEmptyVals (r : Ruleset) : Prop :=
  ∀ t gs, Ruleset.find r t = some gs → gs ≠ []

theorem find_setGuards_cases (r : Ruleset) (t : T) (gs : List Guard)
    (t' : T) (v : List Guard)
    (h : Ruleset.find (Ruleset.setGuards r t gs) t' = some v) :
    (t' = t ∧ v = gs) ∨ Ruleset.find r t' = some v := by
  by_cases ht : t' = t
  · subst ht
    rw [find_setGuards_self] at h
    exact Or.inl ⟨rfl, (Option.some.inj h).symm⟩
  · rw [find_setGuards_ne r t t' gs ht] at h
    exact Or.inr h

theorem nonEmpty_setGuards (r : Ruleset) (t : T) (gs : List Guard)
    (h : NonEmptyVals r) (hgs : gs ≠ []) :
    NonEmptyVals (Ruleset.setGuards r t gs) := by
  intro t' v hfind
  rcases find_setGuards_cases r t gs t' v hfind with ⟨_, rfl⟩ | hold
  · exact hgs
  · exact h t' v hold

theorem nonEmpty_addRule (r : Ruleset) (t : T) (gs : List Guard)
    (h : NonEmptyVals r) : NonEmptyVals (Ruleset.AddRule r t gs) := by
  induction gs generalizing r with
  | nil => exact h
  | cons g rest ih =>
    exact ih (Ruleset.setGuards r t (((Ruleset.find r t).getD []) ++ [g]))
      (nonEmpty_setGuards r t _ h (by simp))

theorem built_nonEmpty (r : Ruleset) (h : Built r) : NonEmptyVals r := by
  induction h with
  | empty => intro t gs hfind; simp [Ruleset.find] at hfind
  | addRule r t gs _ ih => exact nonEmpty_addRule r t gs ih
  | addTransition r t _ ih => exact nonEmpty_addRule r t [defaultGuard t] ih

/-! Model of guard panics and of the goroutine blocked on the result
channel. fsm.go contains no `recover`: the goroutine body at lines 83
to 85 runs the guard and sends its result, nothing else. -/

/-- Result of running one guard body: either the guard returns an
error value (possibly nil), or it panics. -/
inductive GOutcome where
  | ret (e : Option Err)
  | panicked
deriving DecidableEq

/-- A guard that may panic. -/
abbrev PGuard := State → State → GOutcome

/-- A ruleset whose guards may panic. -/
abbrev PRuleset := List (T × List PGuard)

/-- Map lookup, as `Ruleset.find` but for panic-aware guards. -/
def PRuleset.find : PRuleset → T → Option (List PGuard)
  | [], _ => none
  | (k, gs) :: rest, t => if k = t then some gs else PRuleset.find rest t

def GOutcome.isPanic : GOutcome → Bool
  | .panicked => true
  | .ret _ => false

def GOutcome.retVal : GOutcome → Option Err
  | .ret e => e
  | .panicked => none

/-- Process-level result of a `Permitted` call whose guards may panic:
either the call returns an error value, or the process crashes. -/
inductive PResult where
  | ret (e : Option Err)
  | crash
deriving DecidableEq

/-- `Permitted` (fsm.go lines 76 to 100) with panic-aware guards.
Every guard is dispatched in its own goroutine before any result is
collected, and the goroutine body has no `recover`, so in Go an
unrecovered panic in any of the dispatched goroutines terminates the
whole process: the call can produce a value only when no dispatched
guard panics. -/
def PRuleset.Permitted (r : PRuleset) (subjectState goal : State) : PResult :=
  match PRuleset.find r (T.mk subjectState goal) with
  | none => PResult.ret (some (Err.noRulesFound (State.ID subjectState) (State.ID goal)))
  | some gs =>
    if (gs.map (fun g => g subjectState goal)).any GOutcome.isPanic then
      PResult.crash
    else
      PResult.ret (firstErr (gs.map (fun g => GOutcome.retVal (g subjectState goal))))

/-- Number of results the receive loop of `Permitted` consumes before
returning, given the results in arrival order: all of them when every
guard allows, otherwise everything up to and including the first
denial. -/
def consumedCount : List (Option Err) → Nat
  | [] => 0
  | none :: rest => consumedCount rest + 1
  | some _ :: _ => 1

/-- Number of guard goroutines left blocked forever after `Permitted`
returns, given the results in arrival order: the `outcome` channel is
unbuffered and never closed, and `Permitted` performs exactly
`consumedCount` receives on it, so every goroutine whose send is never
received blocks forever. -/
def leakedGuards (r : Ruleset) (subjectState goal : State)
    (arrival : List Guard) : Nat :=
  match Ruleset.find r (T.mk subjectState goal) with
  | none => 0
  | some _ =>
    arrival.length - consumedCount (arrival.map (fun g => g subjectState goal))

theorem consumedCount_append_allNone (l1 l2 : List (Option Err)) (m : Err)
    (h : ∀ x ∈ l1, x = none) :
    consumedCount (l1 ++ some m :: l2) = l1.length + 1 := by
  induction l1 with
  | nil => simp [consumedCount]
  | cons hd rest ih =>
    have hhd : hd = none := h hd (List.mem_cons_self _ _)
    subst hhd
    rw [List.cons_append, consumedCount,
      ih (fun x hx => h x (List.mem_cons_of_mem _ hx))]
    simp [List.length_cons]

/-! Concrete fixtures used in witnesses and counterexamples. -/

/-- A guard that always denies with a custom error. -/
def denyGuard : Guard := fun _ _ => some (Err.custom "deny")

/-- A guard that always allows. -/
def allowGuard : Guard := fun _ _ => none

/-- A guard that always panics. -/
def panicGuard : PGuard := fun _ _ => GOutcome.panicked

/-- A one-entry ruleset whose only guard panics. -/
def rPanic : PRuleset := [(T.mk "a" "b", [panicGuard])]

/-- A one-entry ruleset with a denying guard followed by an allowing
guard. -/
def rLeak : Ruleset := [(T.mk "s" "f", [denyGuard, allowGuard])]

/-- The ruleset of the two-guard witness: a default transition from
"p" to "s" plus a custom denying guard on the same transition. -/
def rTwoGuards : Ruleset :=
  Ruleset.AddRule (CreateRuleset [T.mk "p" "s"]) (T.mk "p" "s") [denyGuard]

/-- The guard list stored in `rTwoGuards` for the "p" to "s" key. -/
def gsTwoGuards : List Guard := [defaultGuard (T.mk "p" "s"), denyGuard]

/-- A ruleset whose only key is present with an empty guard list; not
reachable through the public builders, but expressible as a Go map
literal. -/
def rEmptyGuards : Ruleset := [(T.mk "a" "b", ([] : List Guard))]

/-- Claim C1: for every ruleset and every subject whose current state
and goal form a key registered with a non-empty guard list, `Permitted`
returns nil exactly when every guard for that transition returns nil,
and when at least one guard denies, the returned error is the error of
some denying guard — for every possible arrival order of the guard
results, hence regardless of the order the guards were registered. -/
theorem permitted_all_guards_iff (r : Ruleset) (cur goal : State)
    (gs : List Guard) (hfind : Ruleset.find r (T.mk cur goal) = some gs)
    (_hne : gs ≠ []) (e : Option Err)
    (hout : Ruleset.PermittedOutcome r cur goal e) :
    (e = none ↔ ∀ g ∈ gs, g cur goal = none) ∧
    (∀ msg, e = some msg → ∃ g ∈ gs, g cur goal = some msg) := by
  obtain ⟨arv, hperm, he⟩ := hout.1 gs hfind
  subst he
  constructor
  · rw [firstErr_eq_none_iff]
    constructor
    · intro hall g hg
      exact hall _ (List.mem_map_of_mem _ (hperm.mem_iff.mpr hg))
    · intro hall x hx
      rcases List.mem_map.mp hx with ⟨g, hg, rfl⟩
      exact hall g (hperm.mem_iff.mp hg)
  · intro msg hmsg
    rcases List.mem_map.mp (firstErr_mem _ msg hmsg) with ⟨g, hg, hgeq⟩
    exact ⟨g, hperm.mem_iff.mp hg, hgeq⟩

/-- Witness for C1 at a concrete two-guard ruleset and the sequential
outcome. -/
theorem permitted_all_guards_iff_witness :
    (Ruleset.Permitted rTwoGuards "p" "s" = none ↔
      ∀ g ∈ gsTwoGuards, g "p" "s" = none) ∧
    (∀ msg, Ruleset.Permitted rTwoGuards "p" "s" = some msg →
      ∃ g ∈ gsTwoGuards, g "p" "s" = some msg) :=
  permitted_all_guards_iff rTwoGuards "p" "s" gsTwoGuards rfl
    (List.cons_ne_nil _ _) _ (permitted_isOutcome rTwoGuards "p" "s")

/-- Claim C2: when the attempt key is absent from the ruleset,
`Permitted` returns the "No rules found" error; this is the only
possible outcome, and it is the same for every ruleset in which the
key is absent — independent of guards registered for other keys. -/
theorem permitted_absent_key (r : Ruleset) (cur goal : State)
    (h : Ruleset.find r (T.mk cur goal) = none) :
    Ruleset.Permitted r cur goal
      = some (Err.noRulesFound (State.ID cur) (State.ID goal)) ∧
    (∀ e, Ruleset.PermittedOutcome r cur goal e ↔
      e = some (Err.noRulesFound (State.ID cur) (State.ID goal))) ∧
    (∀ r2 : Ruleset, Ruleset.find r2 (T.mk cur goal) = none →
      Ruleset.Permitted r2 cur goal = Ruleset.Permitted r cur goal) := by
  refine ⟨by simp [Ruleset.Permitted, h], ?_, ?_⟩
  · intro e
    constructor
    · intro hout
      exact hout.2 h
    · intro he
      subst he
      constructor
      · intro gs hgs
        rw [h] at hgs
        cases hgs
      · intro _
        rfl
  · intro r2 h2
    simp [Ruleset.Permitted, h, h2]

/-- Witness for C2 at a concrete ruleset and an unregistered pair. -/
theorem permitted_absent_key_witness :
    Ruleset.find (CreateRuleset [T.mk "p" "s"]) (T.mk "p" "f") = none ∧
    Ruleset.Permitted (CreateRuleset [T.mk "p" "s"]) "p" "f"
      = some (Err.noRulesFound (State.ID "p") (State.ID "f")) :=
  ⟨rfl, (permitted_absent_key (CreateRuleset [T.mk "p" "s"]) "p" "f" rfl).1⟩

/-- Counterexample to claim C3 as stated: in the ruleset built from
the transitions ("a","b") and ("c","b"), the transition ("a","b") is
registered, "c" differs from "a", and yet `Permitted` with current
state "c" and goal "b" succeeds, because ("c","b") is itself a
registered transition whose default guard passes. -/
theorem createRuleset_other_origin_counterexample :
    T.mk "a" "b" ∈ [T.mk "a" "b", T.mk "c" "b"] ∧
    ("c" : State) ≠ ("a" : State) ∧
    Ruleset.Permitted (CreateRuleset [T.mk "a" "b", T.mk "c" "b"]) "c" "b"
      = none :=
  ⟨by simp, by decide, rfl⟩

/-- Claim C3 amended: for a ruleset built by `CreateRuleset` and a
registered transition (A,B), `Permitted` from A to B succeeds, and
`Permitted` from X to B with X different from A fails — provided
(X,B) is not itself a registered transition. -/
theorem createRuleset_permits_registered_only (ts : List T) (A B : State)
    (hmem : T.mk A B ∈ ts) :
    Ruleset.Permitted (CreateRuleset ts) A B = none ∧
    (∀ X : State, X ≠ A → T.mk X B ∉ ts →
      Ruleset.Permitted (CreateRuleset ts) X B
        = some (Err.noRulesFound (State.ID X) (State.ID B))) := by
  constructor
  · have hne : Ruleset.find (CreateRuleset ts) (T.mk A B) ≠ none :=
      fun hn => (find_createRuleset_eq_none_iff ts (T.mk A B)).mp hn hmem
    cases hfind : Ruleset.find (CreateRuleset ts) (T.mk A B) with
    | none => exact absurd hfind hne
    | some gs =>
      exact permitted_allDefault_found (CreateRuleset ts)
        (allDefault_createRuleset ts) A B gs hfind
  · intro X hX hnot
    have hfind : Ruleset.find (CreateRuleset ts) (T.mk X B) = none :=
      (find_createRuleset_eq_none_iff ts (T.mk X B)).mpr hnot
    simp [Ruleset.Permitted, hfind]

/-- Witness for the amended C3 at a one-transition ruleset. -/
theorem createRuleset_permits_registered_only_witness :
    T.mk "a" "b" ∈ [T.mk "a" "b"] ∧
    Ruleset.Permitted (CreateRuleset [T.mk "a" "b"]) "a" "b" = none ∧
    Ruleset.Permitted (CreateRuleset [T.mk "a" "b"]) "c" "b"
      = some (Err.noRulesFound (State.ID "c") (State.ID "b")) :=
  ⟨by simp,
    (createRuleset_permits_registered_only [T.mk "a" "b"] "a" "b" (by simp)).1,
    (createRuleset_permits_registered_only [T.mk "a" "b"] "a" "b" (by simp)).2
      "c" (by decide) (by decide)⟩

/-- Claim C4: `Machine.Transition` calls `Permitted` on the subject's
current state and the goal; when `Permitted` fails the subject is left
unchanged and the error is returned unchanged, and when it succeeds
the subject's state is set to the goal and nil is returned. -/
theorem machine_commits_only_on_success (m : Machine) (goal : State) :
    (Ruleset.Permitted m.rules m.subject goal = none →
      Machine.Transition m goal = (none, Machine.mk m.rules goal)) ∧
    (∀ e, Ruleset.Permitted m.rules m.subject goal = some e →
      Machine.Transition m goal = (some e, m)) := by
  constructor
  · intro h
    simp [Machine.Transition, h]
  · intro e h
    simp [Machine.Transition, h]

/-- The machine of the C4 witness: subject in state "pending" under a
ruleset permitting "pending" to "started". -/
def mPend : Machine := Machine.mk (CreateRuleset [T.mk "pending" "started"]) "pending"

/-- Witness for C4: the concrete machine commits on the permitted goal
and stays put on the unregistered one. -/
theorem machine_commits_only_on_success_witness :
    Ruleset.Permitted mPend.rules mPend.subject "started" = none ∧
    Machine.Transition mPend "started" = (none, Machine.mk mPend.rules "started") ∧
    Ruleset.Permitted mPend.rules mPend.subject "finished"
      = some (Err.noRulesFound (State.ID "pending") (State.ID "finished")) ∧
    Machine.Transition mPend "finished"
      = (some (Err.noRulesFound (State.ID "pending") (State.ID "finished")), mPend) :=
  ⟨rfl, (machine_commits_only_on_success mPend "started").1 rfl, rfl,
    (machine_commits_only_on_success mPend "finished").2 _ rfl⟩

/-- Claim C5: `AddTransition` appends exactly the synthesized default
guard to the transition's guard list, and that guard returns nil
exactly when the subject's current state equals the transition's
declared origin, returning the "Cannot transition" denial otherwise. -/
theorem default_guard_checks_origin (r : Ruleset) (t : T) :
    Ruleset.find (Ruleset.AddTransition r t) t
      = some (((Ruleset.find r t).getD []) ++ [defaultGuard t]) ∧
    (∀ cur goal : State,
      (defaultGuard t cur goal = none ↔ cur = T.Origin t) ∧
      (cur ≠ T.Origin t →
        defaultGuard t cur goal
          = some (Err.cannotTransition (State.ID cur) (State.ID goal)))) := by
  refine ⟨find_addTransition_self r t, ?_⟩
  intro cur goal
  constructor
  · by_cases hc : cur = T.Origin t <;> simp [defaultGuard, hc]
  · intro hc
    simp [defaultGuard, hc]

/-- Witness for C5 at a concrete transition and a mismatching state. -/
theorem default_guard_checks_origin_witness :
    ("x" : State) ≠ T.Origin (T.mk "a" "b") ∧
    defaultGuard (T.mk "a" "b") "x" "b"
      = some (Err.cannotTransition (State.ID "x") (State.ID "b")) ∧
    defaultGuard (T.mk "a" "b") "a" "b" = none :=
  ⟨by decide,
    ((default_guard_checks_origin [] (T.mk "a" "b")).2 "x" "b").2 (by decide),
    ((default_guard_checks_origin [] (T.mk "a" "b")).2 "a" "b").1.mpr (by decide)⟩

/-- Claim C6: a transition key present in the map with an empty guard
list is vacuously permitted — nil is the only possible outcome — even
though an absent key is always denied. -/
theorem empty_guard_list_vacuous (r : Ruleset) (cur goal : State)
    (h : Ruleset.find r (T.mk cur goal) = some []) :
    Ruleset.Permitted r cur goal = none ∧
    (∀ e, Ruleset.PermittedOutcome r cur goal e ↔ e = none) ∧
    (∀ r2 : Ruleset, Ruleset.find r2 (T.mk cur goal) = none →
      Ruleset.Permitted r2 cur goal ≠ none) := by
  refine ⟨by simp [Ruleset.Permitted, h, firstErr], ?_, ?_⟩
  · intro e
    constructor
    · intro hout
      obtain ⟨arv, hperm, he⟩ := hout.1 [] h
      obtain rfl : arv = [] := List.Perm.eq_nil hperm
      simpa [firstErr] using he
    · intro he
      subst he
      constructor
      · intro gs hgs
        rw [h] at hgs
        obtain rfl : ([] : List Guard) = gs := Option.some.inj hgs
        exact ⟨[], List.Perm.refl [], rfl⟩
      · intro hnone
        rw [h] at hnone
        cases hnone
  · intro r2 h2
    simp [Ruleset.Permitted, h2]

/-- Witness for C6 at a map literal holding an empty guard list. -/
theorem empty_guard_list_vacuous_witness :
    Ruleset.find rEmptyGuards (T.mk "a" "b") = some [] ∧
    Ruleset.Permitted rEmptyGuards "a" "b" = none :=
  ⟨rfl, (empty_guard_list_vacuous rEmptyGuards "a" "b" rfl).1⟩

/-- Claim C7: `CreateRuleset` equals the fold of `AddTransition` over
the transition list starting from the empty ruleset, growing one
`AddTransition` call at a time, and two rulesets built from the same
list have identical `Permitted` results and identical outcome sets on
every input. -/
theorem createRuleset_equiv_fold (ts : List T) :
    CreateRuleset ts = List.foldl Ruleset.AddTransition ([] : Ruleset) ts ∧
    (∀ t : T, CreateRuleset (ts ++ [t])
      = Ruleset.AddTransition (CreateRuleset ts) t) ∧
    (∀ cur goal : State,
      Ruleset.Permitted (CreateRuleset ts) cur goal
        = Ruleset.Permitted (List.foldl Ruleset.AddTransition ([] : Ruleset) ts) cur goal ∧
      ∀ e, Ruleset.PermittedOutcome (CreateRuleset ts) cur goal e ↔
        Ruleset.PermittedOutcome (List.foldl Ruleset.AddTransition ([] : Ruleset) ts) cur goal e) := by
  refine ⟨rfl, ?_, ?_⟩
  · intro t
    rw [CreateRuleset, CreateRuleset, List.foldl_append]
    rfl
  · intro cur goal
    exact ⟨rfl, fun e => Iff.rfl⟩

/-- Counterexample to claim C8 as stated: in the concrete ruleset
whose only guard panics, the evaluation crashes the process instead of
returning a denial (fsm.go has no recover in the goroutine body), and
in the concrete two-guard ruleset where the denial arrives first, one
guard goroutine is left blocked forever on the unbuffered result
channel. -/
theorem guard_panic_counterexample :
    PRuleset.Permitted rPanic "a" "b" = PResult.crash ∧
    PRuleset.Permitted rPanic "a" "b" ≠ PResult.ret (some (Err.custom "deny")) ∧
    PRuleset.Permitted rPanic "a" "b" ≠ PResult.ret none ∧
    leakedGuards rLeak "s" "f" [denyGuard, allowGuard] = 1 :=
  ⟨rfl, fun h => PResult.noConfusion h, fun h => PResult.noConfusion h, rfl⟩

/-- Claim C8 amended: a guard panic is not recovered — whenever any
guard of the found list panics, the `Permitted` call crashes the
process instead of producing a value; and when the guard results
arrive with a denial after a prefix of allowing results, every guard
after the denial is left blocked forever sending on the unbuffered,
never-closed result channel (one leaked goroutine per undelivered
result). -/
theorem guard_panic_crashes_and_leaks :
    (∀ (r : PRuleset) (cur goal : State) (gs : List PGuard),
      PRuleset.find r (T.mk cur goal) = some gs →
      (∃ g ∈ gs, g cur goal = GOutcome.panicked) →
      PRuleset.Permitted r cur goal = PResult.crash) ∧
    (∀ (r : Ruleset) (cur goal : State) (gs pre post : List Guard)
      (gd : Guard) (m : Err),
      Ruleset.find r (T.mk cur goal) = some gs →
      List.Perm (pre ++ gd :: post) gs →
      (∀ g ∈ pre, g cur goal = none) →
      gd cur goal = some m →
      leakedGuards r cur goal (pre ++ gd :: post) = post.length) := by
  constructor
  · intro r cur goal gs hfind hex
    obtain ⟨g, hg, hpanic⟩ := hex
    have hany : (gs.map (fun g => g cur goal)).any GOutcome.isPanic = true := by
      rw [List.any_eq_true]
      exact ⟨GOutcome.panicked, List.mem_map.mpr ⟨g, hg, hpanic⟩, rfl⟩
    simp [PRuleset.Permitted, hfind, hany]
  · intro r cur goal gs pre post gd m hfind _hperm hpre hgd
    have hall : ∀ x ∈ pre.map (fun g => g cur goal), x = none := by
      intro x hx
      rcases List.mem_map.mp hx with ⟨g, hg, rfl⟩
      exact hpre g hg
    unfold leakedGuards
    rw [hfind]
    simp only [List.map_append, List.map_cons, hgd]
    rw [consumedCount_append_allNone _ _ m hall]
    simp only [List.length_append, List.length_map, List.length_cons]
    omega

/-- Witness for the amended C8 at the concrete panicking and leaking
rulesets. -/
theorem guard_panic_crashes_and_leaks_witness :
    PRuleset.Permitted rPanic "a" "b" = PResult.crash ∧
    leakedGuards rLeak "s" "f" [denyGuard, allowGuard] = 1 :=
  ⟨guard_panic_crashes_and_leaks.1 rPanic "a" "b" [panicGuard] rfl
      ⟨panicGuard, List.mem_cons_self _ _, rfl⟩,
    guard_panic_crashes_and_leaks.2 rLeak "s" "f" [denyGuard, allowGuard]
      [] [allowGuard] denyGuard (Err.custom "deny") rfl
      (List.Perm.refl _) (fun g hg => absurd hg (List.not_mem_nil g)) rfl⟩

/-- Claim C9: whenever `Permitted` finds a guard list, the lookup key
was built from the subject's current state, so the default guard's
mismatch branch never fires; a ruleset built solely through
`AddTransition` (hence also `CreateRuleset`) can only produce nil or
the "No rules found" error, never the "Cannot transition" error. -/
theorem builtDefault_never_cannot_transition (r : Ruleset)
    (hb : BuiltDefault r) (cur goal : State) (e : Option Err)
    (hout : Ruleset.PermittedOutcome r cur goal e) :
    (e = none ∨ e = some (Err.noRulesFound (State.ID cur) (State.ID goal))) ∧
    (∀ x y : String, e ≠ some (Err.cannotTransition x y)) := by
  have hd : AllDefault r := builtDefault_allDefault r hb
  have hmain : e = none ∨
      e = some (Err.noRulesFound (State.ID cur) (State.ID goal)) := by
    cases hfind : Ruleset.find r (T.mk cur goal) with
    | none => exact Or.inr (hout.2 hfind)
    | some gs =>
      obtain ⟨arv, hperm, he⟩ := hout.1 gs hfind
      left
      subst he
      rw [firstErr_eq_none_iff]
      intro x hx
      rcases List.mem_map.mp hx with ⟨g, hg, rfl⟩
      rw [hd (T.mk cur goal) gs hfind g (hperm.mem_iff.mp hg)]
      simp [defaultGuard, T.Origin]
  refine ⟨hmain, ?_⟩
  intro x y hcontra
  rcases hmain with h0 | h0 <;> subst h0 <;> simp at hcontra

/-- Witness for C9 at a one-transition default ruleset and the
sequential outcome. -/
theorem builtDefault_never_cannot_transition_witness :
    (Ruleset.Permitted (CreateRuleset [T.mk "p" "s"]) "p" "s" = none ∨
      Ruleset.Permitted (CreateRuleset [T.mk "p" "s"]) "p" "s"
        = some (Err.noRulesFound (State.ID "p") (State.ID "s"))) ∧
    (∀ x y : String,
      Ruleset.Permitted (CreateRuleset [T.mk "p" "s"]) "p" "s"
        ≠ some (Err.cannotTransition x y)) :=
  builtDefault_never_cannot_transition (CreateRuleset [T.mk "p" "s"])
    (builtDefault_createRuleset [T.mk "p" "s"]) "p" "s" _
    (permitted_isOutcome (CreateRuleset [T.mk "p" "s"]) "p" "s")

/-- Claim C10: `AddRule` with zero guards leaves the ruleset unchanged,
and every ruleset reachable through the public builders maps each
present key to a non-empty guard list. -/
theorem addRule_nil_noop_and_public_nonempty :
    (∀ (r : Ruleset) (t : T), Ruleset.AddRule r t [] = r) ∧
    (∀ r : Ruleset, Built r → ∀ t gs, Ruleset.find r t = some gs → gs ≠ []) :=
  ⟨fun _ _ => rfl, fun r h => built_nonEmpty r h⟩

/-- Witness for C10 at a concrete built ruleset. -/
theorem addRule_nil_noop_and_public_nonempty_witness :
    Ruleset.AddRule (CreateRuleset [T.mk "a" "b"]) (T.mk "a" "b") []
      = CreateRuleset [T.mk "a" "b"] ∧
    ([defaultGuard (T.mk "a" "b")] : List Guard) ≠ [] :=
  ⟨addRule_nil_noop_and_public_nonempty.1 (CreateRuleset [T.mk "a" "b"]) (T.mk "a" "b"),
    addRule_nil_noop_and_public_nonempty.2 (CreateRuleset [T.mk "a" "b"])
      (Built.addTransition [] (T.mk "a" "b") Built.empty)
      (T.mk "a" "b") [defaultGuard (T.mk "a" "b")] rfl⟩

end Fsm
